import Mathlib

/-!
Shallow embedding of the Zenload multi-strategy resolution-and-download
pipeline (src/downloaders/instagram.py and src/utils/cobalt_service.py),
with theorems settling the frozen claims about it.

Conventions of the embedding:
* Python strings are Lean `String`; where substring reasoning is needed
  (URL matching) they are `List Char`, and Python's `x in s` substring
  test is the decidable `x.toList <:+: s.toList`.
* Python truthiness on optional values is made explicit: `none`, `some ""`
  and `some 0` are falsy, mirroring `if x:` on `Optional[str]` / counts.
* Network and subprocess calls are oracles: each call site takes its
  outcome as an explicit argument, and functions that perform several
  calls additionally return the trace of calls they actually made.
* Machine floats appear only in `time.time()` arithmetic (modelled as
  `Int` seconds) and in `f"{x:.1f}"` / `int(x)` rendering of small exact
  quotients (modelled as exact rational rounding / flooring).
-/

/-- Python truthiness of an optional string: `None` and `""` are falsy. -/
def strTruthy (o : Option String) : Bool :=
  match o with
  | some s => !s.isEmpty
  | none => false

/-- Python `x or y` on optional strings: keep `x` when truthy, else `y`. -/
def strOr (x y : Option String) : Option String :=
  if strTruthy x then x else y

/-- Python truthiness of an optional count: `None` and `0` are falsy. -/
def natTruthy (o : Option Nat) : Bool :=
  o.getD 0 != 0

/- ## instagram.py: platform dispatch and share-URL resolution -/

/-- InstagramDownloader.can_handle (instagram.py:85-86):
`any(x in url for x in ["instagram.com", "instagr.am", "/share/"])`. -/
def can_handle (url : List Char) : Bool :=
  ["instagram.com".toList, "instagr.am".toList, "/share/".toList].any
    (fun x => decide (x <:+: url))

/-- The query-stripping step of _resolve_share_url (instagram.py:324-325):
`if '?' in final_url: final_url = final_url.split('?')[0]`. Python's
`split('?')[0]` is the prefix up to the first `'?'`. -/
def stripQuery (s : List Char) : List Char :=
  if '?' ∈ s then s.takeWhile (fun c => c != '?') else s

/-- InstagramDownloader._resolve_share_url (instagram.py:309-330) on its
happy path. `finalUrl` is the oracle for `response.url`, the URL the
redirect-following GET landed on; non-share URLs are returned unchanged
without any network call. -/
def resolve_share_url (url finalUrl : List Char) : List Char :=
  if "/share/".toList <:+: url then stripQuery finalUrl else url

/- ## instagram.py: strategy chain (_try_cobalt_methods) -/

/-- One entry of a Mobile-API `video_versions` array. -/
structure VideoVersion where
  url : Option String
  width : Nat
  height : Nat
deriving DecidableEq, Repr

/-- A GraphQL `shortcode_media` / `xdt_shortcode_media` node (only the
fields _extract_video_url reads). -/
structure GqlMedia where
  video_url : Option String
  is_video : Bool
deriving DecidableEq, Repr

/-- A `gql_data` payload. Python represents an absent node as a falsy
value (`None`/`{}`), modelled here as `none`. -/
structure GqlData where
  shortcode_media : Option GqlMedia
  xdt_shortcode_media : Option GqlMedia
deriving DecidableEq, Repr

/-- The dict shapes fed to _extract_video_url (instagram.py:258-279). -/
structure IgData where
  video_url : Option String
  video_versions : List VideoVersion
  gql_data : Option GqlData
deriving DecidableEq, Repr

/-- Python `max(vs, key=lambda x: x.get('width',0)*x.get('height',0))`
starting from current best `v`: a later element replaces the best only
when its key is strictly greater, so the first maximum wins. -/
def bestVersion (v : VideoVersion) : List VideoVersion → VideoVersion
  | [] => v
  | w :: ws =>
    if w.width * w.height > v.width * v.height then bestVersion w ws
    else bestVersion v ws

/-- InstagramDownloader._extract_video_url (instagram.py:258-279). -/
def extract_video_url (data : IgData) : Option String :=
  if strTruthy data.video_url then data.video_url
  else
    match data.video_versions with
    | v :: vs => (bestVersion v vs).url
    | [] =>
      match data.gql_data with
      | some gql =>
        match (match gql.shortcode_media with
               | some m => some m
               | none => gql.xdt_shortcode_media) with
        | some media =>
          if strTruthy media.video_url then media.video_url else none
        | none => none
      | none => none

/-- The network-visible methods of the Instagram strategy chain, in the
order _try_cobalt_methods can reach them. -/
inductive IgMethod
  | oembed
  | mobileApi
  | embedCaptioned
  | gql
deriving DecidableEq, Repr

/-- Oracle for the strategy chain: the outcome each network method would
produce if invoked (`none` = that method failed / returned nothing). -/
structure IgEnv where
  mediaId : Option String
  mobileApiData : Option IgData
  embedData : Option IgData
  gqlData : Option IgData

/-- The dict `{'video_url': ..., 'source': ...}` returned by a successful
strategy (the `data` payload is dropped; no claim reads it). -/
structure IgResult where
  video_url : String
  source : String
deriving DecidableEq, Repr

/-- Shared shape of the three method blocks in _try_cobalt_methods
(instagram.py:284-305): a method succeeds only when it returned data and
`_extract_video_url` yielded a truthy URL. -/
def methodResult (data : Option IgData) (src : String) : Option IgResult :=
  match data with
  | some d =>
    match extract_video_url d with
    | some u => if u.isEmpty then none else some ⟨u, src⟩
    | none => none
  | none => none

/-- InstagramDownloader._try_cobalt_methods (instagram.py:281-307),
instrumented with the list of network methods actually invoked, in
invocation order.  Method 1 (Mobile API) runs only when the oEmbed
lookup produced a truthy media_id; each later method runs only when all
earlier ones failed to yield a video URL. -/
def try_cobalt_methods (env : IgEnv) : Option IgResult × List IgMethod :=
  let t1 := if strTruthy env.mediaId then [IgMethod.oembed, IgMethod.mobileApi]
            else [IgMethod.oembed]
  let r1 := if strTruthy env.mediaId then methodResult env.mobileApiData "mobile_api"
            else none
  match r1 with
  | some r => (some r, t1)
  | none =>
    let t2 := t1 ++ [IgMethod.embedCaptioned]
    match methodResult env.embedData "embed" with
    | some r => (some r, t2)
    | none =>
      let t3 := t2 ++ [IgMethod.gql]
      match methodResult env.gqlData "graphql" with
      | some r => (some r, t3)
      | none => (none, t3)

/-- The fixed priority order of the chain's network methods. -/
def igMethodOrder : List IgMethod :=
  [IgMethod.oembed, IgMethod.mobileApi, IgMethod.embedCaptioned, IgMethod.gql]

/-- The methods that come strictly after the strategy named by `src`. -/
def laterMethods (src : String) : List IgMethod :=
  if src = "mobile_api" then [IgMethod.embedCaptioned, IgMethod.gql]
  else if src = "embed" then [IgMethod.gql]
  else []

theorem methodResult_source (d : Option IgData) (s : String) (r : IgResult)
    (h : methodResult d s = some r) : r.source = s := by
  unfold methodResult at h
  split at h
  · split at h
    · split at h
      · exact Option.noConfusion h
      · injection h with h2
        rw [← h2]
    · exact Option.noConfusion h
  · exact Option.noConfusion h

/-- C1 — the strategy chain tries mobile-API (via oEmbed media_id), then
embed-captioned, then GraphQL, strictly in this priority order, and once
a method yields a video URL no later method is invoked: the invocation
trace is always an order-respecting sublist of the priority order
(mobileApi is skipped when the oEmbed lookup yields no media_id), and on
success no method strictly after the winning strategy appears in the
trace. -/
theorem strategy_chain_priority_short_circuit (env : IgEnv) :
    List.Sublist (try_cobalt_methods env).2 igMethodOrder ∧
    (∀ r, (try_cobalt_methods env).1 = some r →
      ∀ m ∈ laterMethods r.source, m ∉ (try_cobalt_methods env).2) := by
  cases h1 : strTruthy env.mediaId with
  | true =>
    cases h2 : methodResult env.mobileApiData "mobile_api" with
    | some r1 =>
      have hres : (try_cobalt_methods env).1 = some r1 := by
        simp [try_cobalt_methods, h1, h2]
      have htr : (try_cobalt_methods env).2 = [IgMethod.oembed, IgMethod.mobileApi] := by
        simp [try_cobalt_methods, h1, h2]
      rw [htr]
      refine ⟨by decide, ?_⟩
      intro r hr m hm
      rw [hres] at hr
      have hrr : r1 = r := by simpa using hr
      subst hrr
      rw [methodResult_source _ _ _ h2] at hm
      rw [show laterMethods "mobile_api" = [IgMethod.embedCaptioned, IgMethod.gql] from by decide] at hm
      simp at hm
      rcases hm with rfl | rfl <;> decide
    | none =>
      cases h3 : methodResult env.embedData "embed" with
      | some r2 =>
        have hres : (try_cobalt_methods env).1 = some r2 := by
          simp [try_cobalt_methods, h1, h2, h3]
        have htr : (try_cobalt_methods env).2 =
            [IgMethod.oembed, IgMethod.mobileApi, IgMethod.embedCaptioned] := by
          simp [try_cobalt_methods, h1, h2, h3]
        rw [htr]
        refine ⟨by decide, ?_⟩
        intro r hr m hm
        rw [hres] at hr
        have hrr : r2 = r := by simpa using hr
        subst hrr
        rw [methodResult_source _ _ _ h3] at hm
        rw [show laterMethods "embed" = [IgMethod.gql] from by decide] at hm
        simp at hm
        subst hm
        decide
      | none =>
        cases h4 : methodResult env.gqlData "graphql" with
        | some r3 =>
          have hres : (try_cobalt_methods env).1 = some r3 := by
            simp [try_cobalt_methods, h1, h2, h3, h4]
          have htr : (try_cobalt_methods env).2 = igMethodOrder := by
            simp [try_cobalt_methods, igMethodOrder, h1, h2, h3, h4]
          rw [htr]
          refine ⟨by decide, ?_⟩
          intro r hr m hm
          rw [hres] at hr
          have hrr : r3 = r := by simpa using hr
          subst hrr
          rw [methodResult_source _ _ _ h4] at hm
          rw [show laterMethods "graphql" = [] from by decide] at hm
          simp at hm
        | none =>
          have hres : (try_cobalt_methods env).1 = none := by
            simp [try_cobalt_methods, h1, h2, h3, h4]
          have htr : (try_cobalt_methods env).2 = igMethodOrder := by
            simp [try_cobalt_methods, igMethodOrder, h1, h2, h3, h4]
          rw [htr]
          refine ⟨by decide, ?_⟩
          intro r hr
          rw [hres] at hr
          simp at hr
  | false =>
    cases h3 : methodResult env.embedData "embed" with
    | some r2 =>
      have hres : (try_cobalt_methods env).1 = some r2 := by
        simp [try_cobalt_methods, h1, h3]
      have htr : (try_cobalt_methods env).2 =
          [IgMethod.oembed, IgMethod.embedCaptioned] := by
        simp [try_cobalt_methods, h1, h3]
      rw [htr]
      refine ⟨by decide, ?_⟩
      intro r hr m hm
      rw [hres] at hr
      have hrr : r2 = r := by simpa using hr
      subst hrr
      rw [methodResult_source _ _ _ h3] at hm
      rw [show laterMethods "embed" = [IgMethod.gql] from by decide] at hm
      simp at hm
      subst hm
      decide
    | none =>
      cases h4 : methodResult env.gqlData "graphql" with
      | some r3 =>
        have hres : (try_cobalt_methods env).1 = some r3 := by
          simp [try_cobalt_methods, h1, h3, h4]
        have htr : (try_cobalt_methods env).2 =
            [IgMethod.oembed, IgMethod.embedCaptioned, IgMethod.gql] := by
          simp [try_cobalt_methods, h1, h3, h4]
        rw [htr]
        refine ⟨by decide, ?_⟩
        intro r hr m hm
        rw [hres] at hr
        have hrr : r3 = r := by simpa using hr
        subst hrr
        rw [methodResult_source _ _ _ h4] at hm
        rw [show laterMethods "graphql" = [] from by decide] at hm
        simp at hm
      | none =>
        have hres : (try_cobalt_methods env).1 = none := by
          simp [try_cobalt_methods, h1, h3, h4]
        have htr : (try_cobalt_methods env).2 =
            [IgMethod.oembed, IgMethod.embedCaptioned, IgMethod.gql] := by
          simp [try_cobalt_methods, h1, h3, h4]
        rw [htr]
        refine ⟨by decide, ?_⟩
        intro r hr
        rw [hres] at hr
        simp at hr

/-- Concrete oracle for the witness: the oEmbed lookup yields a media_id
and the Mobile API returns a playable video URL. -/
def igEnvMobileSuccess : IgEnv :=
  { mediaId := some "3141592653589"
  , mobileApiData := some
      { video_url := some "https://cdn.example/v.mp4"
      , video_versions := []
      , gql_data := none }
  , embedData := none
  , gqlData := none }

theorem strategy_chain_priority_short_circuit_witness :
    List.Sublist (try_cobalt_methods igEnvMobileSuccess).2 igMethodOrder ∧
    IgMethod.embedCaptioned ∉ (try_cobalt_methods igEnvMobileSuccess).2 ∧
    IgMethod.gql ∉ (try_cobalt_methods igEnvMobileSuccess).2 := by
  have h := strategy_chain_priority_short_circuit igEnvMobileSuccess
  refine ⟨h.1, ?_, ?_⟩
  · exact h.2 ⟨"https://cdn.example/v.mp4", "mobile_api"⟩ (by decide)
      IgMethod.embedCaptioned (by decide)
  · exact h.2 ⟨"https://cdn.example/v.mp4", "mobile_api"⟩ (by decide)
      IgMethod.gql (by decide)

/-- C10 — can_handle claims every URL whose text contains "/share/",
Instagram host or not; witnessed below on a non-Instagram URL. -/
theorem can_handle_claims_any_share_url (url : List Char)
    (h : "/share/".toList <:+: url) : can_handle url = true := by
  unfold can_handle
  simp only [List.any_cons, List.any_nil, Bool.or_eq_true, decide_eq_true_eq]
  exact Or.inr (Or.inr (Or.inl h))

theorem can_handle_claims_any_share_url_witness :
    ("/share/".toList <:+: "https://evil.example.org/share/xyz".toList) ∧
    can_handle "https://evil.example.org/share/xyz".toList = true ∧
    ¬ ("instagram.com".toList <:+: "https://evil.example.org/share/xyz".toList) ∧
    ¬ ("instagr.am".toList <:+: "https://evil.example.org/share/xyz".toList) :=
  ⟨by decide,
   can_handle_claims_any_share_url "https://evil.example.org/share/xyz".toList (by decide),
   by decide, by decide⟩

/-- C4 counterexample — the claim says the resolver removes trailing
slashes; on a share URL redirecting to ".../reel/XYZ/" the code keeps
the trailing slash (only the query string is ever stripped). -/
theorem resolve_share_url_keeps_trailing_slash :
    resolve_share_url "https://www.instagram.com/share/reel/abc".toList
        "https://www.instagram.com/reel/XYZ/".toList
      = "https://www.instagram.com/reel/XYZ/".toList ∧
    resolve_share_url "https://www.instagram.com/share/reel/abc".toList
        "https://www.instagram.com/reel/XYZ/".toList
      ≠ "https://www.instagram.com/reel/XYZ".toList := by
  constructor
  · decide
  · decide

/-- C4 amended — for every share-link URL the resolver returns the final
redirected URL with the query string (everything from the first '?')
removed; trailing slashes are preserved: the result never contains '?',
is a prefix of the final URL, and equals the final URL verbatim whenever
that URL has no query string. -/
theorem resolve_share_url_strips_query_only (url finalUrl : List Char)
    (h : "/share/".toList <:+: url) :
    resolve_share_url url finalUrl = stripQuery finalUrl ∧
    '?' ∉ resolve_share_url url finalUrl ∧
    resolve_share_url url finalUrl <+: finalUrl ∧
    ('?' ∉ finalUrl → resolve_share_url url finalUrl = finalUrl) := by
  have heq : resolve_share_url url finalUrl = stripQuery finalUrl := by
    unfold resolve_share_url
    rw [if_pos h]
  refine ⟨heq, ?_, ?_, ?_⟩
  · rw [heq]
    unfold stripQuery
    by_cases hq : '?' ∈ finalUrl
    · rw [if_pos hq]
      intro hmem
      have hp := List.mem_takeWhile_imp hmem
      simp at hp
    · rw [if_neg hq]
      exact hq
  · rw [heq]
    unfold stripQuery
    by_cases hq : '?' ∈ finalUrl
    · rw [if_pos hq]
      exact List.takeWhile_prefix _
    · rw [if_neg hq]
  · intro hq
    rw [heq]
    unfold stripQuery
    rw [if_neg hq]

theorem resolve_share_url_strips_query_only_witness :
    ("/share/".toList <:+: "https://instagram.com/share/p/q".toList) ∧
    resolve_share_url "https://instagram.com/share/p/q".toList
        "https://host/reel/XYZ/?igshid=x".toList
      = stripQuery "https://host/reel/XYZ/?igshid=x".toList ∧
    '?' ∉ resolve_share_url "https://instagram.com/share/p/q".toList
        "https://host/reel/XYZ/?igshid=x".toList :=
  have h := resolve_share_url_strips_query_only
    "https://instagram.com/share/p/q".toList
    "https://host/reel/XYZ/?igshid=x".toList (by decide)
  ⟨by decide, h.1, h.2.1⟩

/- ## instagram.py: metadata formatting (_prepare_metadata) -/

/-- Round-to-nearest of `a / b`, ties to even — the rounding CPython's
`f"{x:.1f}"` performs on the exact quotient (binary-float representation
error on the quotient is abstracted away; the claims' inputs divide to
exactly representable tenths). -/
def roundHalfEvenDiv (a b : Nat) : Nat :=
  let q := a / b
  let r := a % b
  if 2 * r < b then q
  else if b < 2 * r then q + 1
  else if q % 2 = 0 then q else q + 1

/-- Python `f"{n/d:.1f}"` for naturals `n`, `d`: one decimal digit. -/
def oneDecimal (n d : Nat) : String :=
  let t := roundHalfEvenDiv (n * 10) d
  toString (t / 10) ++ "." ++ toString (t % 10)

/-- The inner `format_number` of _prepare_metadata (instagram.py:477-484).
The argument is the Python value with `None` collapsed to `0`; both are
falsy so `format_number` renders both as "0". -/
def format_number (num : Nat) : String :=
  if num = 0 then "0"
  else if 1000000 ≤ num then oneDecimal num 1000000 ++ "M"
  else if 1000 ≤ num then oneDecimal num 1000 ++ "K"
  else toString num

/-- The fields of the yt-dlp `info` dict read by _prepare_metadata.
`user_username` is `info.get('user', {}).get('username', '')`;
absent keys are `none` / `""`. -/
structure YtInfo where
  like_count : Option Nat
  view_count : Option Nat
  play_count : Option Nat
  user_username : String
  uploader : String
deriving DecidableEq, Repr

/-- The username expression of _prepare_metadata (instagram.py:487). -/
def usernameOf (info : YtInfo) : String :=
  if info.user_username ≠ "" then info.user_username
  else (info.uploader.replace "https://www.instagram.com/" "").trim

/-- InstagramDownloader._prepare_metadata (instagram.py:476-493). The
f-strings are written as explicit concatenations (same character
sequences; parenthesisation of `++` is semantically irrelevant). -/
def prepare_metadata (info : YtInfo) (url : String) : String :=
  let likes := format_number (info.like_count.getD 0)
  let username := usernameOf info
  if natTruthy info.view_count || natTruthy info.play_count then
    let views := format_number
      (if natTruthy info.view_count then info.view_count.getD 0
       else info.play_count.getD 0)
    "Instagram | " ++ views ++ " | " ++ likes ++ "\nby " ++
      ("<a href=\"" ++ url ++ "\">") ++ username ++ "</a>"
  else
    "Instagram | " ++ likes ++ "\nby " ++
      ("<a href=\"" ++ url ++ "\">") ++ username ++ "</a>"

/-- C6 — count rendering thresholds (≥ 10^6 → one decimal + "M",
≥ 10^3 → one decimal + "K", else the plain integer), the spec's concrete
examples, omission of the view segment when neither a view count nor a
play count is truthy (0 renders as "0" for likes), and the caption always
containing the link back to the canonical URL. -/
theorem metadata_formatter_props :
    (∀ n, 1000000 ≤ n → format_number n = oneDecimal n 1000000 ++ "M") ∧
    (∀ n, 1000 ≤ n → n < 1000000 → format_number n = oneDecimal n 1000 ++ "K") ∧
    (∀ n, n < 1000 → format_number n = toString n) ∧
    format_number 1500000 = "1.5M" ∧
    format_number 2300 = "2.3K" ∧
    format_number 0 = "0" ∧
    (∀ info url, natTruthy info.view_count = false →
      natTruthy info.play_count = false →
      prepare_metadata info url =
        "Instagram | " ++ format_number (info.like_count.getD 0) ++ "\nby " ++
          ("<a href=\"" ++ url ++ "\">") ++ usernameOf info ++ "</a>") ∧
    (∀ info url, ∃ a b,
      prepare_metadata info url = a ++ ("<a href=\"" ++ url ++ "\">") ++ b) := by
  refine ⟨?_, ?_, ?_, by decide, by decide, by decide, ?_, ?_⟩
  · intro n h
    unfold format_number
    rw [if_neg (by omega), if_pos h]
  · intro n h1 h2
    unfold format_number
    rw [if_neg (by omega), if_neg (by omega), if_pos h1]
  · intro n h
    unfold format_number
    by_cases h0 : n = 0
    · subst h0
      decide
    · rw [if_neg h0, if_neg (by omega), if_neg (by omega)]
  · intro info url h1 h2
    unfold prepare_metadata
    rw [h1, h2]
    rfl
  · intro info url
    unfold prepare_metadata
    by_cases hv : (natTruthy info.view_count || natTruthy info.play_count) = true
    · rw [if_pos hv]
      exact ⟨"Instagram | " ++ format_number
          (if natTruthy info.view_count then info.view_count.getD 0
           else info.play_count.getD 0) ++ " | " ++
          format_number (info.like_count.getD 0) ++ "\nby ",
        usernameOf info ++ "</a>",
        by simp [String.append_assoc]⟩
    · rw [if_neg hv]
      exact ⟨"Instagram | " ++ format_number (info.like_count.getD 0) ++ "\nby ",
        usernameOf info ++ "</a>",
        by simp [String.append_assoc]⟩

/-- Concrete info dict with no view/play count and zero likes. -/
def ytInfoNoViews : YtInfo :=
  { like_count := some 0, view_count := none, play_count := none
  , user_username := "alice", uploader := "" }

theorem metadata_formatter_props_witness :
    format_number 1000000 = oneDecimal 1000000 1000000 ++ "M" ∧
    format_number 2300 = oneDecimal 2300 1000 ++ "K" ∧
    format_number 42 = toString 42 ∧
    prepare_metadata ytInfoNoViews "https://instagram.com/p/A" =
      "Instagram | 0\nby " ++
        ("<a href=\"" ++ "https://instagram.com/p/A" ++ "\">") ++
        "alice" ++ "</a>" ∧
    (∃ a b, prepare_metadata ytInfoNoViews "https://instagram.com/p/A" =
      a ++ ("<a href=\"" ++ "https://instagram.com/p/A" ++ "\">") ++ b) := by
  refine ⟨metadata_formatter_props.1 1000000 (by decide),
    metadata_formatter_props.2.1 2300 (by decide) (by decide),
    metadata_formatter_props.2.2.1 42 (by decide),
    ?_,
    metadata_formatter_props.2.2.2.2.2.2.2 ytInfoNoViews "https://instagram.com/p/A"⟩
  have h := metadata_formatter_props.2.2.2.2.2.2.1 ytInfoNoViews
    "https://instagram.com/p/A" (by decide) (by decide)
  simpa using h

/- ## instagram.py: download progress hook (_progress_hook) -/

/-- The fields of the yt-dlp progress dict read by _progress_hook;
absent keys are `none`. -/
structure ProgressDict where
  status : String
  total_bytes : Option Nat
  total_bytes_estimate : Option Nat
  downloaded_bytes : Option Nat
deriving DecidableEq, Repr

/-- Python `x or y` on optional counts (`d.get('total_bytes') or ...`). -/
def natOrD (x : Option Nat) (y : Nat) : Nat :=
  if natTruthy x then x.getD 0 else y

/-- InstagramDownloader._progress_hook (instagram.py:495-504): the value
passed to update_progress, or `none` when no update is emitted.
`int((downloaded/total)*70)` is modelled as the exact floor
`downloaded * 70 / total`. -/
def progress_hook (d : ProgressDict) : Option Nat :=
  if d.status = "downloading" then
    let total := natOrD d.total_bytes (d.total_bytes_estimate.getD 0)
    let downloaded := d.downloaded_bytes.getD 0
    if 0 < total then some (downloaded * 70 / total + 20) else none
  else none

/-- C9 counterexample — with an estimated total of 100 bytes and 200
bytes downloaded, the hook emits 160, outside the 0–100 range, so the
claim as stated fails. -/
theorem progress_hook_exceeds_100 :
    progress_hook
      { status := "downloading", total_bytes := none
      , total_bytes_estimate := some 100, downloaded_bytes := some 200 }
      = some 160 ∧ ¬ (160 ≤ 100) := by
  constructor
  · rfl
  · decide

/-- C9 amended — when no total byte count (reported or estimated) is
truthy the update is skipped; every emitted value is
`⌊downloaded / total · 70⌋ + 20`, which lies in the 0–100 range (indeed
in 20–90) whenever downloaded ≤ total, but can exceed 100 when the
received bytes overshoot the (estimated) total. -/
theorem progress_hook_amended :
    (∀ d : ProgressDict,
      natOrD d.total_bytes (d.total_bytes_estimate.getD 0) = 0 →
      progress_hook d = none) ∧
    (∀ (d : ProgressDict) (v : Nat), progress_hook d = some v →
      v = d.downloaded_bytes.getD 0 * 70 /
            natOrD d.total_bytes (d.total_bytes_estimate.getD 0) + 20 ∧
      (d.downloaded_bytes.getD 0 ≤
          natOrD d.total_bytes (d.total_bytes_estimate.getD 0) →
        20 ≤ v ∧ v ≤ 90)) := by
  constructor
  · intro d h
    unfold progress_hook
    rw [h]
    simp
  · intro d v h
    unfold progress_hook at h
    by_cases hs : d.status = "downloading"
    · rw [if_pos hs] at h
      by_cases ht : 0 < natOrD d.total_bytes (d.total_bytes_estimate.getD 0)
      · rw [if_pos ht] at h
        injection h with h
        subst h
        refine ⟨rfl, fun hle => ⟨Nat.le_add_left 20 _, ?_⟩⟩
        have h70 : d.downloaded_bytes.getD 0 * 70 ≤
            natOrD d.total_bytes (d.total_bytes_estimate.getD 0) * 70 :=
          Nat.mul_le_mul_right 70 hle
        have hdiv := Nat.div_le_div_right
          (c := natOrD d.total_bytes (d.total_bytes_estimate.getD 0)) h70
        rw [Nat.mul_div_cancel_left 70 ht] at hdiv
        exact le_trans (Nat.add_le_add_right hdiv 20) (by decide)
      · rw [if_neg ht] at h
        exact Option.noConfusion h
    · rw [if_neg hs] at h
      exact Option.noConfusion h

theorem progress_hook_amended_witness :
    progress_hook
      { status := "downloading", total_bytes := some 0
      , total_bytes_estimate := none, downloaded_bytes := some 9 } = none ∧
    (35 = 60 * 70 / 280 + 20 ∧ (20 ≤ 35 ∧ 35 ≤ 90)) := by
  constructor
  · exact progress_hook_amended.1
      { status := "downloading", total_bytes := some 0
      , total_bytes_estimate := none, downloaded_bytes := some 9 } (by decide)
  · have h := progress_hook_amended.2
      { status := "downloading", total_bytes := some 280
      , total_bytes_estimate := none, downloaded_bytes := some 60 } 35 (by rfl)
    exact ⟨by decide, h.2 (by decide)⟩

/- ## cobalt_service.py: instance discovery (_fetch_instances) -/

/-- Python `s.startswith(pre)` (kernel-computable form). -/
def strStarts (s pre : String) : Bool :=
  decide (pre.toList <+: s.toList)

/-- Python `s.endswith(suf)` (kernel-computable form). -/
def strEnds (s suf : String) : Bool :=
  decide (suf.toList <:+ s.toList)

/-- FALLBACK_INSTANCES (cobalt_service.py:29-33). -/
def FALLBACK_INSTANCES : List String :=
  [ "https://cobalt-api.kwiatekmiki.com/"
  , "https://cobalt-backend.canine.tools/"
  , "https://capi.3kh0.net/" ]

/-- One entry of the discovery endpoint's JSON array, restricted to the
fields _fetch_instances reads; `trust`/`cors` carry the `.get` defaults
0 / False already applied. -/
structure InstanceEntry where
  api : Option String
  api_url : Option String
  trust : Int
  cors : Bool
deriving DecidableEq, Repr

/-- URL normalisation inside _fetch_instances (cobalt_service.py:109-113). -/
def normalizeApi (api : String) : String :=
  let api1 := if strStarts api "http" then api else "https://" ++ api
  if strEnds api1 "/" then api1 else api1 ++ "/"

/-- The per-entry accept/normalise step of the loop in _fetch_instances
(cobalt_service.py:103-117): skip entries without a truthy
`api`/`api_url`, normalise the URL, keep it only when `trust >= 1` and
`cors` is true. -/
def fetchAccept (item : InstanceEntry) : Option String :=
  let api := strOr item.api item.api_url
  if strTruthy api then
    if item.trust ≥ 1 ∧ item.cors then some (normalizeApi (api.getD ""))
    else none
  else none

/-- Every way contacting the discovery endpoint can turn out, as seen by
_fetch_instances: the subprocess raised, exited non-zero, produced empty
stdout, produced unparseable JSON, or produced a JSON list of entries. -/
inductive FetchOutcome
  | unreachable
  | exitFailure
  | emptyOutput
  | malformedJson
  | parsed (items : List InstanceEntry)
deriving DecidableEq, Repr

/-- CobaltService._fetch_instances (cobalt_service.py:86-126).  All
failure outcomes — including an accepted-but-empty list — fall through
to the fixed fallback list; the function is total (never raises). -/
def fetch_instances : FetchOutcome → List String
  | .parsed items =>
    if (items.filterMap fetchAccept).isEmpty then FALLBACK_INSTANCES
    else items.filterMap fetchAccept
  | .unreachable => FALLBACK_INSTANCES
  | .exitFailure => FALLBACK_INSTANCES
  | .emptyOutput => FALLBACK_INSTANCES
  | .malformedJson => FALLBACK_INSTANCES

theorem fetch_instances_ne_nil (fo : FetchOutcome) : fetch_instances fo ≠ [] := by
  cases fo with
  | parsed items =>
    simp only [fetch_instances]
    by_cases h : (items.filterMap fetchAccept).isEmpty
    · rw [if_pos h]
      decide
    · rw [if_neg h]
      simpa [List.isEmpty_iff] using h
  | unreachable => decide
  | exitFailure => decide
  | emptyOutput => decide
  | malformedJson => decide

/-- C8 — every failure outcome of instance discovery yields the built-in
fallback list (which is non-empty) rather than an exception, and a
successful discovery only ever returns normalised URLs of entries whose
trust score is at least 1 and whose CORS flag is true (or, when no entry
qualifies, the fallback list again). -/
theorem fetch_instances_fallback_and_filter :
    fetch_instances .unreachable = FALLBACK_INSTANCES ∧
    fetch_instances .exitFailure = FALLBACK_INSTANCES ∧
    fetch_instances .emptyOutput = FALLBACK_INSTANCES ∧
    fetch_instances .malformedJson = FALLBACK_INSTANCES ∧
    fetch_instances (.parsed []) = FALLBACK_INSTANCES ∧
    FALLBACK_INSTANCES ≠ [] ∧
    (∀ items url, url ∈ fetch_instances (.parsed items) →
      fetch_instances (.parsed items) = FALLBACK_INSTANCES ∨
      ∃ item ∈ items, item.trust ≥ 1 ∧ item.cors = true ∧
        url = normalizeApi ((strOr item.api item.api_url).getD "")) := by
  refine ⟨rfl, rfl, rfl, rfl, rfl, by decide, ?_⟩
  intro items url hmem
  simp only [fetch_instances] at hmem ⊢
  by_cases h : (items.filterMap fetchAccept).isEmpty
  · rw [if_pos h]
    exact Or.inl rfl
  · rw [if_neg h] at hmem
    rw [if_neg h]
    refine Or.inr ?_
    rcases List.mem_filterMap.mp hmem with ⟨item, hitem, hacc⟩
    refine ⟨item, hitem, ?_⟩
    unfold fetchAccept at hacc
    by_cases ht : strTruthy (strOr item.api item.api_url)
    · rw [if_pos ht] at hacc
      by_cases htc : item.trust ≥ 1 ∧ item.cors
      · rw [if_pos htc] at hacc
        injection hacc with h2
        exact ⟨htc.1, htc.2, h2.symm⟩
      · rw [if_neg htc] at hacc
        exact Option.noConfusion hacc
    · rw [if_neg ht] at hacc
      exact Option.noConfusion hacc

theorem fetch_instances_fallback_and_filter_witness :
    "https://good.example/" ∈ fetch_instances (.parsed
      [ { api := some "good.example", api_url := none, trust := 2, cors := true }
      , { api := some "bad.example", api_url := none, trust := 0, cors := true } ]) ∧
    (fetch_instances (.parsed
      [ { api := some "good.example", api_url := none, trust := 2, cors := true }
      , { api := some "bad.example", api_url := none, trust := 0, cors := true } ])
        = FALLBACK_INSTANCES ∨
     ∃ item ∈ ([ { api := some "good.example", api_url := none, trust := 2, cors := true }
               , { api := some "bad.example", api_url := none, trust := 0, cors := true } ] :
               List InstanceEntry), item.trust ≥ 1 ∧ item.cors = true ∧
       "https://good.example/" = normalizeApi ((strOr item.api item.api_url).getD "")) :=
  ⟨by decide,
   fetch_instances_fallback_and_filter.2.2.2.2.2.2
     [ { api := some "good.example", api_url := none, trust := 2, cors := true }
     , { api := some "bad.example", api_url := none, trust := 0, cors := true } ]
     "https://good.example/" (by decide)⟩

/- ## cobalt_service.py: instance cache and rotation (_get_instances) -/

/-- INSTANCES_CACHE_TTL (cobalt_service.py:26), in seconds. -/
def INSTANCES_CACHE_TTL : Int := 3600

/-- The mutable fields of CobaltService (cobalt_service.py:80-84).
`time.time()` values are whole seconds (`Int`); the Python `set` of
failed instances is a duplicate-free-by-insertion list. -/
structure CobaltState where
  instances : List String
  instancesUpdated : Int
  currentIndex : Nat
  failedInstances : List String
deriving DecidableEq, Repr

/-- CobaltService._get_instances (cobalt_service.py:128-147).  `now` is
the oracle for `time.time()`, `fo` for the discovery call made on a
refresh, and `shuffle` for `random.shuffle` (an arbitrary permutation).
Returns the available list and the updated state. -/
def get_instances (st : CobaltState) (now : Int) (fo : FetchOutcome)
    (shuffle : List String → List String) : List String × CobaltState :=
  let st1 :=
    if st.instances.isEmpty ∨ now - st.instancesUpdated > INSTANCES_CACHE_TTL then
      { st with instances := shuffle (fetch_instances fo)
              , instancesUpdated := now
              , failedInstances := [] }
    else st
  let available := st1.instances.filter (fun i => !st1.failedInstances.contains i)
  if available.isEmpty then (st1.instances, { st1 with failedInstances := [] })
  else (available, st1)

/-- C2 — whenever the failed set covers the full cached instance list,
the next _get_instances call clears the failed set and returns a
non-empty list (non-emptiness of the cache is guaranteed because
_fetch_instances always falls back to the non-empty built-in list, and a
state with an empty cache triggers a refresh). -/
theorem get_instances_self_healing (st : CobaltState) (now : Int)
    (fo : FetchOutcome) (shuffle : List String → List String)
    (hsh : ∀ l, List.Perm (shuffle l) l)
    (hfail : ∀ i, i ∈ st.failedInstances ↔ i ∈ st.instances) :
    (get_instances st now fo shuffle).1 ≠ [] ∧
    (get_instances st now fo shuffle).2.failedInstances = [] := by
  unfold get_instances
  by_cases hr : st.instances.isEmpty ∨ now - st.instancesUpdated > INSTANCES_CACHE_TTL
  · rw [if_pos hr]
    have hne : shuffle (fetch_instances fo) ≠ [] := by
      intro hc
      have hperm := hsh (fetch_instances fo)
      rw [hc] at hperm
      exact fetch_instances_ne_nil fo (List.Perm.nil_eq hperm).symm
    have hfilter : (shuffle (fetch_instances fo)).filter
        (fun i => !(List.contains [] i)) = shuffle (fetch_instances fo) := by
      simp [List.contains]
    simp only [hfilter]
    by_cases he : (shuffle (fetch_instances fo)).isEmpty
    · exact absurd (List.isEmpty_iff.mp he) hne
    · rw [if_neg he]
      exact ⟨hne, rfl⟩
  · rw [if_neg hr]
    have hinst : ¬ st.instances.isEmpty := fun h => hr (Or.inl h)
    have hfilter : st.instances.filter
        (fun i => !(st.failedInstances.contains i)) = [] := by
      rw [List.filter_eq_nil_iff]
      intro i hi
      simpa using (hfail i).mpr hi
    simp only [hfilter]
    rw [if_pos List.isEmpty_nil]
    refine ⟨?_, rfl⟩
    intro hc
    have hnil : st.instances = [] := by simpa using hc
    exact hinst (by simp [hnil])

/-- All-failed concrete state for the witness. -/
def stAllFailed : CobaltState :=
  { instances := ["https://a.example/", "https://b.example/"]
  , instancesUpdated := 1000
  , currentIndex := 5
  , failedInstances := ["https://b.example/", "https://a.example/"] }

theorem get_instances_self_healing_witness :
    (get_instances stAllFailed 1500 .unreachable id).1 ≠ [] ∧
    (get_instances stAllFailed 1500 .unreachable id).2.failedInstances = [] :=
  get_instances_self_healing stAllFailed 1500 .unreachable id
    (fun l => List.Perm.refl l)
    (fun i => by
      simp only [stAllFailed, List.mem_cons, List.not_mem_nil, or_false]
      tauto)

/- ## cobalt_service.py: request with instance failover (request) -/

/-- One entry of a `picker` response list. -/
structure PickerItem where
  itemType : Option String
  url : Option String
deriving DecidableEq, Repr

/-- The `error` field of an error response: a JSON dict (whose `code`
may be absent) or some other JSON value rendered via `str(error)`. -/
inductive ErrorField
  | dict (code : Option String)
  | str (s : String)
deriving DecidableEq, Repr

/-- The response dict fields the request loop reads. `error = none`
models an absent key, which Python defaults to `{}`. -/
structure RespData where
  status : Option String
  url : Option String
  filename : Option String
  picker : Option (List PickerItem)
  error : Option ErrorField
deriving DecidableEq, Repr

/-- `error.get("code") if isinstance(error, dict) else str(error)`
(cobalt_service.py:254). -/
def errCode (e : Option ErrorField) : Option String :=
  match e with
  | none => none
  | some (.dict c) => c
  | some (.str s) => some s

/-- Python `str(code)` with `str(None) = "None"`. -/
def codeStr (c : Option String) : String :=
  match c with
  | some s => s
  | none => "None"

/-- The terminal content-error test (cobalt_service.py:256):
`any(x in str(code) for x in ["content", "unavailable", "private"])`. -/
def isTerminalCode (c : Option String) : Bool :=
  ["content".toList, "unavailable".toList, "private".toList].any
    (fun x => decide (x <:+: (codeStr c).toList))

/-- The CobaltResult dataclass (cobalt_service.py:67-74). -/
structure CobaltResult where
  success : Bool
  url : Option String := none
  filename : Option String := none
  error : Option String := none
  picker : Option (List PickerItem) := none
deriving DecidableEq, Repr

/-- CobaltService._get_next_instance (cobalt_service.py:149-155):
round-robin pick, advancing `currentIndex` (left unchanged on the
empty-list guard, which returns FALLBACK_INSTANCES[0]). -/
def get_next_instance (st : CobaltState) (instances : List String) :
    String × CobaltState :=
  if instances.isEmpty then (FALLBACK_INSTANCES.headD "", st)
  else (instances.getD (st.currentIndex % instances.length) "",
        { st with currentIndex := st.currentIndex + 1 })

/-- The response dispatch of one loop iteration (cobalt_service.py:237-257):
`some result` ends the loop (redirect/tunnel/picker success, or a
terminal content error surfaced verbatim); `none` falls through to
marking the instance failed and advancing. -/
def handleResponse (data : RespData) : Option CobaltResult :=
  if data.status = some "redirect" ∨ data.status = some "tunnel" then
    some { success := true, url := data.url, filename := data.filename }
  else if data.status = some "picker" then
    some { success := true, picker := some (data.picker.getD [])
         , filename := data.filename }
  else if data.status = some "error" then
    if isTerminalCode (errCode data.error) then
      some { success := false, error := errCode data.error }
    else none
  else none

/-- The official-API response dispatch (cobalt_service.py:267-275); an
unrecognised status falls through to the final "All instances failed". -/
def officialHandle (data : RespData) : CobaltResult :=
  if data.status = some "redirect" ∨ data.status = some "tunnel" then
    { success := true, url := data.url, filename := data.filename }
  else if data.status = some "picker" then
    { success := true, picker := some (data.picker.getD []) }
  else if data.status = some "error" then
    { success := false, error := errCode data.error }
  else { success := false, error := some "All instances failed" }

/-- The `for attempt in range(min(3, len(instances)))` loop of request
(cobalt_service.py:231-260), one recursion step per response oracle in
`resps` (already truncated to the attempt budget).  Accumulates the
instances contacted, and on a fall-through marks the picked instance
failed before advancing. -/
def request_loop (instances : List String) :
    List (Option RespData) → CobaltState → List String →
    Option CobaltResult × CobaltState × List String
  | [], st, contacted => (none, st, contacted)
  | resp :: rest, st, contacted =>
    match get_next_instance st instances with
    | (inst, st1) =>
      match resp with
      | some data =>
        match handleResponse data with
        | some r => (some r, st1, contacted ++ [inst])
        | none =>
          request_loop instances rest
            { st1 with failedInstances := st1.failedInstances.insert inst }
            (contacted ++ [inst])
      | none =>
        request_loop instances rest
          { st1 with failedInstances := st1.failedInstances.insert inst }
          (contacted ++ [inst])

/-- CobaltService.request (cobalt_service.py:209-277).  `resps` gives
the oracle outcome of `_make_request` per attempt; `officialToken` is
OFFICIAL_TOKEN, `officialResp` the oracle outcome of the official-API
call if made.  The final `Bool` records whether the official API was
contacted. -/
def request (st : CobaltState) (instances : List String)
    (resps : List (Option RespData)) (officialToken : String)
    (officialResp : Option RespData) :
    CobaltResult × CobaltState × List String × Bool :=
  match request_loop instances (resps.take (min 3 instances.length)) st [] with
  | (some r, st1, contacted) => (r, st1, contacted, false)
  | (none, st1, contacted) =>
    if officialToken ≠ "" then
      match officialResp with
      | some data => (officialHandle data, st1, contacted, true)
      | none =>
        ({ success := false, error := some "All instances failed" }, st1, contacted, true)
    else
      ({ success := false, error := some "All instances failed" }, st1, contacted, false)

/-- C3 — (a) a response with status "error" whose code mentions content/
unavailable/private ends the attempt loop at once: the result carries
that error code unchanged, only the current instance was contacted
beyond the prior trace, the remaining response budget is never consulted
and the instance is not marked failed; (b) whenever the attempt loop
produced a definitive result, `request` surfaces it unchanged and never
contacts the official API; (c) every non-definitive response (including
transport failure and non-terminal errors) marks the picked instance
failed and advances the loop to the next instance. -/
theorem request_terminal_error_short_circuits :
    (∀ (rest : List (Option RespData)) (st : CobaltState)
       (contacted : List String) (data : RespData) (insts : List String),
      data.status = some "error" →
      isTerminalCode (errCode data.error) = true →
      request_loop insts (some data :: rest) st contacted =
        (some { success := false, error := errCode data.error },
         (get_next_instance st insts).2,
         contacted ++ [(get_next_instance st insts).1])) ∧
    (∀ (st : CobaltState) (insts : List String)
       (resps : List (Option RespData)) (tok : String)
       (oresp : Option RespData) (r : CobaltResult) (st1 : CobaltState)
       (contacted : List String),
      request_loop insts (resps.take (min 3 insts.length)) st [] =
        (some r, st1, contacted) →
      request st insts resps tok oresp = (r, st1, contacted, false)) ∧
    (∀ (insts : List String) (rest : List (Option RespData))
       (st : CobaltState) (contacted : List String)
       (resp : Option RespData),
      (∀ data, resp = some data → handleResponse data = none) →
      request_loop insts (resp :: rest) st contacted =
        request_loop insts rest
          { (get_next_instance st insts).2 with
              failedInstances :=
                ((get_next_instance st insts).2).failedInstances.insert
                  (get_next_instance st insts).1 }
          (contacted ++ [(get_next_instance st insts).1])) := by
  refine ⟨?_, ?_, ?_⟩
  · intro rest st contacted data insts hstatus hterm
    have hhr : handleResponse data =
        some { success := false, error := errCode data.error } := by
      unfold handleResponse
      rw [hstatus]
      rw [if_neg (by simp), if_neg (by simp), if_pos rfl, if_pos hterm]
    cases hgn : get_next_instance st insts with
    | mk inst st1 =>
      simp only [request_loop, hgn, hhr]
  · intro st insts resps tok oresp r st1 contacted hloop
    unfold request
    rw [hloop]
  · intro insts rest st contacted resp hnd
    cases hgn : get_next_instance st insts with
    | mk inst st1 =>
      cases resp with
      | none => simp only [request_loop, hgn]
      | some data => simp only [request_loop, hgn, hnd data rfl]

/-- Concrete instance pool for the witness. -/
def cobaltInsts : List String :=
  ["https://i1.example/", "https://i2.example/", "https://i3.example/"]

/-- Fresh service state over `cobaltInsts`. -/
def cobaltSt0 : CobaltState :=
  { instances := cobaltInsts, instancesUpdated := 0
  , currentIndex := 0, failedInstances := [] }

/-- A terminal content-error response. -/
def terminalErrResp : RespData :=
  { status := some "error", url := none, filename := none, picker := none
  , error := some (.dict (some "error.api.content.post.private")) }

theorem request_terminal_error_short_circuits_witness :
    (request_loop cobaltInsts [some terminalErrResp] cobaltSt0 [] =
      (some { success := false, error := errCode terminalErrResp.error },
       (get_next_instance cobaltSt0 cobaltInsts).2,
       [] ++ [(get_next_instance cobaltSt0 cobaltInsts).1])) ∧
    (request cobaltSt0 cobaltInsts [some terminalErrResp] "secret-token"
        (some terminalErrResp) =
      ({ success := false, error := errCode terminalErrResp.error },
       { cobaltSt0 with currentIndex := 1 }, ["https://i1.example/"], false)) ∧
    (request_loop cobaltInsts [none] cobaltSt0 [] =
      request_loop cobaltInsts []
        { (get_next_instance cobaltSt0 cobaltInsts).2 with
            failedInstances :=
              ((get_next_instance cobaltSt0 cobaltInsts).2).failedInstances.insert
                (get_next_instance cobaltSt0 cobaltInsts).1 }
        ([] ++ [(get_next_instance cobaltSt0 cobaltInsts).1])) := by
  refine ⟨request_terminal_error_short_circuits.1 [] cobaltSt0 [] terminalErrResp
      cobaltInsts rfl (by decide), ?_,
    request_terminal_error_short_circuits.2.2 cobaltInsts [] cobaltSt0 [] none
      (fun d hd => Option.noConfusion hd)⟩
  exact request_terminal_error_short_circuits.2.1 cobaltSt0 cobaltInsts
    [some terminalErrResp] "secret-token" (some terminalErrResp)
    { success := false, error := errCode terminalErrResp.error }
    { cobaltSt0 with currentIndex := 1 } ["https://i1.example/"] (by decide)

/- ## instagram.py: yt-dlp format enumeration (get_formats) -/

/-- The quality label `f"{height}p"` (instagram.py:379). -/
def heightLabel (h : Nat) : String :=
  toString h ++ "p"

/-- One yt-dlp format entry as read by get_formats; `height` is `none`
when absent (Python also skips a reported height of 0, being falsy). -/
structure YtFormat where
  format_id : String
  height : Option Nat
  ext : String
deriving DecidableEq, Repr

/-- One output dict `{'id', 'quality', 'ext'}` (instagram.py:381).
`height` additionally records the number the label was built from —
exactly what the final sort key `int(x['quality'][:-1])` parses back out
of `quality`. -/
structure OutFormat where
  id : String
  quality : String
  height : Nat
  ext : String
deriving DecidableEq, Repr

/-- The output entry built from a kept format. -/
def mkOut (f : YtFormat) : OutFormat :=
  { id := f.format_id, quality := heightLabel (f.height.getD 0)
  , height := f.height.getD 0, ext := f.ext }

/-- The dedup loop of get_formats (instagram.py:374-382): skip entries
without a truthy height, keep the first entry per quality label. -/
def buildFormats : List YtFormat → List String → List OutFormat
  | [], _ => []
  | f :: rest, seen =>
    if natTruthy f.height then
      if seen.contains (heightLabel (f.height.getD 0)) then buildFormats rest seen
      else mkOut f :: buildFormats rest (heightLabel (f.height.getD 0) :: seen)
    else buildFormats rest seen

/-- Stable descending insertion: `f` goes before the first element of
strictly smaller height, i.e. after all elements of height ≥ its own —
the order Python's stable `sorted(..., reverse=True)` produces. -/
def insertDesc (f : OutFormat) : List OutFormat → List OutFormat
  | [] => [f]
  | g :: gs => if g.height < f.height then f :: g :: gs else g :: insertDesc f gs

/-- `sorted(formats, key=lambda x: int(x['quality'][:-1]), reverse=True)`
(instagram.py:385) as a stable insertion sort. -/
def sortFormatsDesc (l : List OutFormat) : List OutFormat :=
  l.foldl (fun acc f => insertDesc f acc) []

/-- The format list the yt-dlp branch of get_formats returns
(instagram.py:371-385): dedup by label, then sort by descending height. -/
def get_formats_list (fmts : List YtFormat) : List OutFormat :=
  sortFormatsDesc (buildFormats fmts [])

theorem insertDesc_perm (f : OutFormat) (l : List OutFormat) :
    List.Perm (insertDesc f l) (f :: l) := by
  induction l with
  | nil => exact List.Perm.refl _
  | cons g gs ih =>
    unfold insertDesc
    by_cases h : g.height < f.height
    · rw [if_pos h]
    · rw [if_neg h]
      exact List.Perm.trans (List.Perm.cons g ih) (List.Perm.swap f g gs)

theorem sortFormatsDesc_foldl_perm (l : List OutFormat) :
    ∀ acc, List.Perm (l.foldl (fun acc f => insertDesc f acc) acc) (acc ++ l) := by
  induction l with
  | nil => intro acc; simp
  | cons f fs ih =>
    intro acc
    have h1 := ih (insertDesc f acc)
    have h2 : List.Perm (insertDesc f acc ++ fs) ((f :: acc) ++ fs) :=
      List.Perm.append_right fs (insertDesc_perm f acc)
    have h3 : List.Perm ((f :: acc) ++ fs) (acc ++ f :: fs) :=
      List.perm_middle.symm
    exact List.Perm.trans h1 (List.Perm.trans h2 h3)

theorem sortFormatsDesc_perm (l : List OutFormat) :
    List.Perm (sortFormatsDesc l) l := by
  have h := sortFormatsDesc_foldl_perm l []
  simpa [sortFormatsDesc] using h

theorem insertDesc_pairwise (f : OutFormat) (l : List OutFormat)
    (h : l.Pairwise (fun a b => b.height ≤ a.height)) :
    (insertDesc f l).Pairwise (fun a b => b.height ≤ a.height) := by
  induction l with
  | nil => simp [insertDesc]
  | cons g gs ih =>
    rcases List.pairwise_cons.mp h with ⟨hg, hgs⟩
    unfold insertDesc
    by_cases hlt : g.height < f.height
    · rw [if_pos hlt]
      refine List.pairwise_cons.mpr ⟨?_, h⟩
      intro x hx
      rcases List.mem_cons.mp hx with hxg | hxgs
      · subst hxg
        exact Nat.le_of_lt hlt
      · exact Nat.le_trans (hg x hxgs) (Nat.le_of_lt hlt)
    · rw [if_neg hlt]
      refine List.pairwise_cons.mpr ⟨?_, ih hgs⟩
      intro x hx
      have hx' : x ∈ f :: gs := (insertDesc_perm f gs).mem_iff.mp hx
      rcases List.mem_cons.mp hx' with hxf | hxgs
      · subst hxf
        exact Nat.le_of_not_lt hlt
      · exact hg x hxgs

theorem sortFormatsDesc_foldl_pairwise (l : List OutFormat) :
    ∀ acc, acc.Pairwise (fun a b => b.height ≤ a.height) →
      (l.foldl (fun acc f => insertDesc f acc) acc).Pairwise
        (fun a b => b.height ≤ a.height) := by
  induction l with
  | nil => intro acc hacc; simpa using hacc
  | cons f fs ih =>
    intro acc hacc
    exact ih (insertDesc f acc) (insertDesc_pairwise f acc hacc)

theorem buildFormats_first_occurrence (fmts : List YtFormat) :
    ∀ (seen : List String) (g : OutFormat), g ∈ buildFormats fmts seen →
      g.quality ∉ seen ∧
      ∃ f, fmts.find? (fun x => natTruthy x.height &&
          (heightLabel (x.height.getD 0) == g.quality)) = some f ∧ g = mkOut f := by
  induction fmts with
  | nil =>
    intro seen g hg
    simp [buildFormats] at hg
  | cons f rest ih =>
    intro seen g hg
    by_cases hh : natTruthy f.height
    · rw [show buildFormats (f :: rest) seen =
          (if seen.contains (heightLabel (f.height.getD 0)) then buildFormats rest seen
           else mkOut f :: buildFormats rest (heightLabel (f.height.getD 0) :: seen))
          from by rw [buildFormats, if_pos hh]] at hg
      by_cases hs : seen.contains (heightLabel (f.height.getD 0))
      · rw [if_pos hs] at hg
        obtain ⟨hg1, f', hf', hgf⟩ := ih seen g hg
        refine ⟨hg1, f', ?_, hgf⟩
        rw [List.find?_cons_of_neg _ ?_]
        · exact hf'
        · simp only [hh, Bool.true_and, beq_iff_eq]
          intro hlab
          rw [hlab] at hs
          exact hg1 (by simpa using hs)
      · rw [if_neg hs] at hg
        rcases List.mem_cons.mp hg with hgf | hgrest
        · subst hgf
          refine ⟨by simpa using hs, f, ?_, rfl⟩
          rw [List.find?_cons_of_pos _ ?_]
          simp [hh, mkOut]
        · obtain ⟨hg1, f', hf', hgf⟩ := ih _ g hgrest
          have hg1' : g.quality ≠ heightLabel (f.height.getD 0) ∧ g.quality ∉ seen := by
            constructor
            · intro hc
              exact hg1 (by rw [hc]; exact List.mem_cons_self _ _)
            · intro hc
              exact hg1 (List.mem_cons_of_mem _ hc)
          refine ⟨hg1'.2, f', ?_, hgf⟩
          rw [List.find?_cons_of_neg _ ?_]
          · exact hf'
          · simp only [hh, Bool.true_and, beq_iff_eq]
            exact fun hc => hg1'.1 hc.symm
    · rw [show buildFormats (f :: rest) seen = buildFormats rest seen
          from by rw [buildFormats, if_neg hh]] at hg
      obtain ⟨hg1, f', hf', hgf⟩ := ih seen g hg
      refine ⟨hg1, f', ?_, hgf⟩
      rw [List.find?_cons_of_neg _ ?_]
      · exact hf'
      · simp [hh]

theorem buildFormats_quality_nodup (fmts : List YtFormat) :
    ∀ seen : List String,
      ((buildFormats fmts seen).map (fun g => g.quality)).Nodup := by
  induction fmts with
  | nil =>
    intro seen
    simp [buildFormats]
  | cons f rest ih =>
    intro seen
    by_cases hh : natTruthy f.height
    · rw [show buildFormats (f :: rest) seen =
          (if seen.contains (heightLabel (f.height.getD 0)) then buildFormats rest seen
           else mkOut f :: buildFormats rest (heightLabel (f.height.getD 0) :: seen))
          from by rw [buildFormats, if_pos hh]]
      by_cases hs : seen.contains (heightLabel (f.height.getD 0))
      · rw [if_pos hs]
        exact ih seen
      · rw [if_neg hs]
        simp only [List.map_cons, List.nodup_cons]
        refine ⟨?_, ih _⟩
        intro hmem
        rcases List.mem_map.mp hmem with ⟨g, hg, hgq⟩
        have hspec := (buildFormats_first_occurrence rest _ g hg).1
        rw [hgq] at hspec
        exact hspec (by simp [mkOut, List.mem_cons_self])
    · rw [show buildFormats (f :: rest) seen = buildFormats rest seen
          from by rw [buildFormats, if_neg hh]]
      exact ih seen

/-- C7 — the yt-dlp format list is deduplicated by quality label keeping
the first occurrence per label, and sorted by descending height; the
spec's concrete scenario [{1080p},{720p},{720p}] yields [{1080p},{720p}]
in that order.  Part four states "first occurrence": every returned
entry is built from exactly the first input format carrying its label. -/
theorem get_formats_dedup_sorted :
    get_formats_list
        [⟨"f1", some 1080, "mp4"⟩, ⟨"f2", some 720, "mp4"⟩, ⟨"f3", some 720, "mp4"⟩] =
      [⟨"f1", "1080p", 1080, "mp4"⟩, ⟨"f2", "720p", 720, "mp4"⟩] ∧
    (∀ fmts, ((get_formats_list fmts).map (fun g => g.quality)).Nodup) ∧
    (∀ fmts, (get_formats_list fmts).Pairwise (fun a b => b.height ≤ a.height)) ∧
    (∀ fmts g, g ∈ get_formats_list fmts →
      ∃ f, fmts.find? (fun x => natTruthy x.height &&
          (heightLabel (x.height.getD 0) == g.quality)) = some f ∧ g = mkOut f) := by
  refine ⟨by decide, ?_, ?_, ?_⟩
  · intro fmts
    have hperm := sortFormatsDesc_perm (buildFormats fmts [])
    have hmap := List.Perm.map (fun g => g.quality) hperm
    exact (List.Perm.nodup_iff hmap).mpr (buildFormats_quality_nodup fmts [])
  · intro fmts
    exact sortFormatsDesc_foldl_pairwise _ [] List.Pairwise.nil
  · intro fmts g hg
    have hg' : g ∈ buildFormats fmts [] :=
      (sortFormatsDesc_perm _).mem_iff.mp hg
    exact (buildFormats_first_occurrence fmts [] g hg').2

theorem get_formats_dedup_sorted_witness :
    ∃ f, ([⟨"f1", some 1080, "mp4"⟩, ⟨"f2", some 720, "mp4"⟩,
           ⟨"f3", some 720, "mp4"⟩] : List YtFormat).find?
        (fun x => natTruthy x.height &&
          (heightLabel (x.height.getD 0) == ("720p" : String))) = some f ∧
      (⟨"f2", "720p", 720, "mp4"⟩ : OutFormat) = mkOut f :=
  get_formats_dedup_sorted.2.2.2
    [⟨"f1", some 1080, "mp4"⟩, ⟨"f2", some 720, "mp4"⟩, ⟨"f3", some 720, "mp4"⟩]
    ⟨"f2", "720p", 720, "mp4"⟩ (by decide)

/- ## Rate limiter (InstagramDownloader.__init__ constants + base class) -/

/-- min_request_interval = 1 second (instagram.py:65). -/
def min_request_interval : Nat := 1

/-- max_retries = 3 (instagram.py:66). -/
def max_retries : Nat := 3

/-- Modelled from the spec: the rate limiter's `backoff` implementation
lives in the `BaseDownloader` base class (src/downloaders/base.py),
which is not under src/; per the spec it computes a wait of
`base * 2^attempt` seconds with base = 5s. -/
def backoff (attempt : Nat) : Nat :=
  5 * 2 ^ attempt

/-- Modelled from the spec: `throttle` (also in the absent base class)
suspends the caller until at least `min_request_interval` has elapsed
since the last call with the same key.  State-passing form: from the
last-request timestamp and the current time it returns the time at
which the call returns, which also becomes the new last-request time. -/
def throttle (lastTime now : Int) : Int × Int :=
  let ret := max now (lastTime + (min_request_interval : Int))
  (ret, ret)

/-- C5 — backoff(attempt) = 5s · 2^attempt: base is 5s, each retry
doubles the wait, and the wait is monotonically non-decreasing in
`attempt` up to max_retries (= 3, from instagram.py:66); two immediately
successive `throttle` calls with the same key return at least
`min_request_interval` (= 1s, from instagram.py:65) apart. -/
theorem rate_limiter_backoff_and_throttle :
    backoff 0 = 5 ∧
    (∀ a, backoff (a + 1) = 2 * backoff a) ∧
    (∀ a b, a ≤ b → b ≤ max_retries → backoff a ≤ backoff b) ∧
    (∀ lastTime now1 now2 : Int,
      (throttle (throttle lastTime now1).2 now2).1 -
        (throttle lastTime now1).1 ≥ (min_request_interval : Int)) := by
  refine ⟨rfl, ?_, ?_, ?_⟩
  · intro a
    simp only [backoff, pow_succ]
    ring
  · intro a b hab _
    exact Nat.mul_le_mul_left 5 (Nat.pow_le_pow_right (by decide) hab)
  · intro lastTime now1 now2
    simp only [throttle, min_request_interval, Nat.cast_one]
    have h1 : max now1 (lastTime + 1) + 1 ≤
        max now2 (max now1 (lastTime + 1) + 1) := le_max_right _ _
    omega

theorem rate_limiter_backoff_and_throttle_witness :
    backoff 1 ≤ backoff 3 ∧
    (throttle (throttle 0 7).2 7).1 - (throttle 0 7).1 ≥
      (min_request_interval : Int) :=
  ⟨rate_limiter_backoff_and_throttle.2.2.1 1 3 (by decide) (by decide),
   rate_limiter_backoff_and_throttle.2.2.2 0 7 7⟩
